import Mathlib

/-!
Verification of the GenAI Content Monitor core (classifier, summarizer,
seen-article ledger, scheduler configuration) against its specification.

Python strings are modelled as `List Char`; Python's `datetime` timestamps are
modelled as integers counting days (so `timedelta(days=d)` is the integer `d`);
an ISO timestamp string that fails `datetime.fromisoformat` is modelled as
`Option.none`.  The regular-expression engine `re.search` is an external
collaborator and is modelled as an abstract matcher function; the seven
pattern strings themselves are kept verbatim.
-/

namespace GenAIMonitor

/-- Whitespace characters recognised by Python's `str.split()` / `str.strip()`
(ASCII fragment). -/
def isPySpace (c : Char) : Bool :=
  c == ' ' || c == '\t' || c == '\n' || c == '\r' || c == '\x0b' || c == '\x0c'

/-- Python `str.lower()` (ASCII behaviour). -/
def lowerStr (s : List Char) : List Char :=
  s.map Char.toLower

/-- `needle.isPrefixListOf haystack` — auxiliary for the substring test. -/
def isPrefixList : List Char → List Char → Bool
  | [], _ => true
  | _ :: _, [] => false
  | a :: as, b :: bs => a == b && isPrefixList as bs

/-- Python's `needle in haystack` substring test. -/
def isSubstr (needle : List Char) : List Char → Bool
  | [] => needle.isEmpty
  | b :: bs => isPrefixList needle (b :: bs) || isSubstr needle bs

/-- Accumulator-based worker for `pySplit`. -/
def pySplitAux (acc : List Char) : List Char → List (List Char)
  | [] => if acc.isEmpty then [] else [acc.reverse]
  | c :: rest =>
    if isPySpace c then
      if acc.isEmpty then pySplitAux [] rest
      else acc.reverse :: pySplitAux [] rest
    else pySplitAux (c :: acc) rest

/-- Python `content.split()` (split on runs of whitespace, dropping empties). -/
def pySplit (l : List Char) : List (List Char) :=
  pySplitAux [] l

/-- Python `content.split('. ')`. -/
def splitDotSpace : List Char → List (List Char)
  | [] => [[]]
  | '.' :: ' ' :: rest => [] :: splitDotSpace rest
  | c :: rest =>
    match splitDotSpace rest with
    | [] => [[c]]
    | w :: ws => (c :: w) :: ws

/-- Python `'. '.join(parts)`. -/
def joinDotSpace : List (List Char) → List Char
  | [] => []
  | [s] => s
  | s :: rest => s ++ '.' :: ' ' :: joinDotSpace rest

/-- Python `' '.join(parts)`. -/
def joinSpace : List (List Char) → List Char
  | [] => []
  | [s] => s
  | s :: rest => s ++ ' ' :: joinSpace rest

/-- Python `s.strip()`. -/
def pyStrip (s : List Char) : List Char :=
  ((s.dropWhile isPySpace).reverse.dropWhile isPySpace).reverse

/-- Does the string end with the character `c` (Python `s.endswith(str(c))`)? -/
def endsWithChar (l : List Char) (c : Char) : Bool :=
  l.getLast? == some c

/-- Does the string end with the string `s`? -/
def endsList (l s : List Char) : Bool :=
  l.reverse.take s.length == s.reverse

/-! ## Classifier (`src/ai_processor.py`, `is_genai_related`) -/

/-- Default `GENAI_KEYWORDS` from `Config._parse_keywords` (src/config.py). -/
def defaultKeywords : List (List Char) :=
  ["generative ai", "genai", "gpt", "large language model", "llm",
   "chatgpt", "claude", "artificial intelligence", "machine learning",
   "neural network", "transformer", "diffusion", "stable diffusion",
   "midjourney", "dall-e", "text generation", "image generation",
   "natural language processing", "nlp", "deep learning"].map String.data

/-- The seven fixed regular-expression pattern strings `genai_patterns`
(src/ai_processor.py).  They are opaque tokens handed to the abstract
`re.search` collaborator. -/
def genaiPatterns : List (List Char) :=
  ["\\b(gpt-?\\d+|chatgpt|claude|dall-?e|midjourney)\\b",
   "\\b(large language model|llm)s?\\b",
   "\\b(neural network|transformer|diffusion)\\b",
   "\\b(text generation|image generation|content generation)\\b",
   "\\b(artificial intelligence|machine learning)\\b",
   "\\b(natural language processing|nlp)\\b",
   "\\b(generative\\s+ai|genai)\\b"].map String.data

/-- The fixed secondary `context_indicators` list (src/ai_processor.py). -/
def contextIndicators : List (List Char) :=
  ["artificial intelligence", "machine learning", "deep learning",
   "neural", "algorithm", "model training", "language model",
   "computer vision", "natural language"].map String.data

/-- First pass of `is_genai_related`: count configured keywords occurring as
substrings of the lower-cased content. -/
def countKeywordMatches (keywords : List (List Char)) (content : List Char) : Nat :=
  keywords.countP (fun k => isSubstr k (lowerStr content))

/-- `re.search` is an external collaborator: `matcher pattern text` models
`re.search(pattern, text) is not None`.  This counts patterns of
`genai_patterns` matching the lower-cased content. -/
def countPatternMatches (matcher : List Char → List Char → Bool) (content : List Char) : Nat :=
  genaiPatterns.countP (fun p => matcher p (lowerStr content))

/-- Count of `context_indicators` occurring as substrings of the lower-cased
content. -/
def countContextMatches (content : List Char) : Nat :=
  contextIndicators.countP (fun k => isSubstr k (lowerStr content))

/-- `word_count = len(content.split())`. -/
def wordCount (content : List Char) : Nat :=
  (pySplit content).length

/-- `keyword_density = keyword_matches / max(word_count, 1) if word_count > 0 else 0`. -/
def keywordDensity (keywords : List (List Char)) (content : List Char) : ℚ :=
  if 0 < wordCount content then
    (countKeywordMatches keywords content : ℚ) / (max (wordCount content) 1 : ℚ)
  else 0

/-- `AIProcessor.is_genai_related` (src/ai_processor.py lines 40-100), with
`re.search` abstracted as `matcher`. -/
def is_genai_related (matcher : List Char → List Char → Bool)
    (keywords : List (List Char)) (content : List Char) : Bool :=
  if content = [] then false
  else if 3 ≤ countKeywordMatches keywords content ∨
      2 ≤ countPatternMatches matcher content then true
  else if 1 ≤ countKeywordMatches keywords content ∧
      ((1 : ℚ)/1000 < keywordDensity keywords content ∨
        1 ≤ countPatternMatches matcher content) then true
  else if 3 ≤ countContextMatches content ∧
      1 ≤ countKeywordMatches keywords content then true
  else false

/-! ## Summarizer (`src/ai_processor.py`, `summarize_article` and
`_generate_extractive_summary`) -/

/-- Score of the `i`-th sentence in `_generate_extractive_summary`: +1 per
configured keyword occurring in the lower-cased sentence, +0.5 bonus for the
first three sentences.  All scores are exact multiples of 0.5, so they are
stored doubled (+2 per keyword, +1 bonus) to remain in `ℕ`; doubling is
strictly monotone, so every score comparison — hence the sort — is
unchanged. -/
def sentenceScore (keywords : List (List Char)) (i : Nat) (s : List Char) : Nat :=
  2 * keywords.countP (fun k => isSubstr k (lowerStr s)) +
    (if i < 3 then 1 else 0)

/-- The `scored_sentences` list, in original order. -/
def scoredSentences (keywords : List (List Char)) (sentences : List (List Char)) :
    List (Nat × List Char) :=
  sentences.enum.map (fun p => (sentenceScore keywords p.1 p.2, p.2))

/-- The greedy selection loop: append sentences in scored order while
`current_length + len(sentence)` stays at most `max_length`; `break` on the
first sentence that would exceed it. -/
def greedyPick (maxLen : Nat) : Nat → List (Nat × List Char) → List (List Char)
  | _, [] => []
  | cur, (_, s) :: rest =>
    if maxLen < cur + s.length then []
    else s :: greedyPick maxLen (cur + s.length) rest

/-- Total number of characters in the selected sentences (the code's final
`current_length`). -/
def sumLens (ps : List (List Char)) : Nat :=
  (ps.map List.length).sum

/-- The `summary_parts` selected by `_generate_extractive_summary` (empty on
the ≤2-sentence early return).  `scored_sentences.sort(key score, reverse)` is
Python's stable sort, modelled by a stable insertion sort on the reversed
order. -/
def extractiveParts (keywords : List (List Char)) (content : List Char)
    (maxLen : Nat) : List (List Char) :=
  if (splitDotSpace content).length ≤ 2 then []
  else greedyPick maxLen 0
    (List.insertionSort (fun a b => b.1 ≤ a.1)
      (scoredSentences keywords (splitDotSpace content)))

/-- `if summary and not summary.endswith('.'): summary += '.'`. -/
def withTerminalDot (s : List Char) : List Char :=
  if s ≠ [] ∧ endsWithChar s '.' = false then s ++ ['.'] else s

/-- `AIProcessor._generate_extractive_summary` (src/ai_processor.py lines
140-187).  The `try` body is pure, so the `except` branch is unreachable. -/
def _generate_extractive_summary (keywords : List (List Char)) (content : List Char)
    (maxLen : Nat) : List Char :=
  if (splitDotSpace content).length ≤ 2 then
    if maxLen < content.length then content.take maxLen ++ "...".data else content
  else
    if withTerminalDot (joinDotSpace (extractiveParts keywords content maxLen)) ≠ [] then
      withTerminalDot (joinDotSpace (extractiveParts keywords content maxLen))
    else content.take maxLen ++ "...".data

/-- The input cap applied by `summarize_article` before calling the model:
texts longer than 1024 words are truncated to their first 1024 words. -/
def truncateWords (content : List Char) : List Char :=
  if 1024 < (pySplit content).length then joinSpace ((pySplit content).take 1024)
  else content

/-- `AIProcessor.summarize_article` (src/ai_processor.py lines 102-138).
`summarizer` is the loaded model pipeline (`none` when loading failed); the
model call `model text maxLen minLen` returns `none` when the call raises, in
which case control passes to the extractive fallback. -/
def summarize_article (summarizer : Option (List Char → Nat → Nat → Option (List Char)))
    (keywords : List (List Char)) (content : List Char)
    (maxLen : Nat) (minLen : Nat) : List Char :=
  match summarizer with
  | none => "Summary not available".data
  | some model =>
    if content = [] then "Summary not available".data
    else
      match model (truncateWords content) maxLen minLen with
      | some out =>
        if endsWithChar (pyStrip out) '.' = true then pyStrip out
        else pyStrip out ++ ['.']
      | none => _generate_extractive_summary keywords (truncateWords content) maxLen

/-! ## Ledger (`src/storage.py`, `ArticleStorage`) -/

/-- One entry of the `articles` mapping.  `first_seen` holds the result of
parsing the stored ISO timestamp: `some t` for a timestamp of `t` days,
`none` when `datetime.fromisoformat` would raise. -/
structure SeenEntry where
  title : Option (List Char)
  first_seen : Option Int
  seen_count : Nat
deriving DecidableEq

/-- The in-memory ledger `self.seen_articles`: creation/last-update times and
the URL-keyed `articles` dictionary, modelled as an insertion-ordered
association list with unique keys. -/
structure Ledger where
  created_at : Int
  last_updated : Int
  articles : List (List Char × SeenEntry)
deriving DecidableEq

/-- Dictionary lookup `articles[url]` / `articles.get(url)`. -/
def lookupUrl (articles : List (List Char × SeenEntry)) (url : List Char) :
    Option SeenEntry :=
  (articles.find? (fun e => e.1 == url)).map (fun e => e.2)

/-- Python dict assignment `articles[url] = entry`: replace in place when the
key exists (position preserved), else append at the end. -/
def dictInsert : List (List Char × SeenEntry) → List Char → SeenEntry →
    List (List Char × SeenEntry)
  | [], url, entry => [(url, entry)]
  | e :: rest, url, entry =>
    if e.1 = url then (url, entry) :: rest else e :: dictInsert rest url entry

/-- `ArticleStorage.is_article_seen` (src/storage.py lines 66-68). -/
def is_article_seen (st : Ledger) (url : List Char) : Bool :=
  (lookupUrl st.articles url).isSome

/-- `self.seen_articles["articles"].get(url, {}).get("seen_count", 0)`. -/
def prevCount (st : Ledger) (url : List Char) : Nat :=
  match lookupUrl st.articles url with
  | some e => e.seen_count
  | none => 0

/-- `ArticleStorage.mark_article_seen` (src/storage.py lines 70-82); `now` is
`datetime.now()`.  The stored entry's `first_seen` is set to `now` and its
`seen_count` to the previous count (0 if absent) plus one; the save then
updates `last_updated`. -/
def mark_article_seen (st : Ledger) (url : List Char) (title : Option (List Char))
    (now : Int) : Ledger :=
  { st with
    articles := dictInsert st.articles url ⟨title, some now, prevCount st url + 1⟩,
    last_updated := now }

/-- Should `cleanup_old_articles` evict this entry?  Evicted when the stored
`first_seen` is strictly older than the cutoff, or when parsing it raises
(`ValueError`/`TypeError`). -/
def staleEntry (cutoff : Int) (e : List Char × SeenEntry) : Bool :=
  match e.2.first_seen with
  | some t => t < cutoff
  | none => true

/-- The `urls_to_remove` list collected by the cleanup loop. -/
def urlsToRemove (st : Ledger) (cutoff : Int) : List (List Char) :=
  (st.articles.filter (staleEntry cutoff)).map (fun e => e.1)

/-- `ArticleStorage.cleanup_old_articles` (src/storage.py lines 99-125);
`now` is `datetime.now()` and the cutoff is `now - daysOld` days.  The
collected URLs are deleted from the dictionary; the save (updating
`last_updated`) only happens when something was removed. -/
def cleanup_old_articles (st : Ledger) (daysOld : Nat) (now : Int) : Ledger :=
  { st with
    articles := st.articles.filter
      (fun e => !((urlsToRemove st (now - daysOld)).contains e.1)),
    last_updated :=
      if (urlsToRemove st (now - daysOld)).isEmpty then st.last_updated else now }

/-- `ArticleStorage._load_seen_articles` (src/storage.py lines 22-43).  The
store file is abstracted as `none` (file absent), `some none` (present but
unreadable or unparsable, i.e. the `try` raised), or `some (some data)`
(parsed successfully).  In both failure shapes a fresh empty ledger stamped
with `now` is returned; the function never propagates an exception. -/
def _load_seen_articles (file : Option (Option Ledger)) (now : Int) : Ledger :=
  match file with
  | some (some data) => data
  | some none => ⟨now, now, []⟩
  | none => ⟨now, now, []⟩

/-! ## Scheduler configuration (`src/scheduler.py`, `src/run_scheduler.py`) -/

/-- A job registered with the `schedule` library. -/
inductive JobSpec where
  | everyHours (n : Nat)
  | dailyAt (time : List Char)
  | mondayAt (time : List Char)
deriving DecidableEq

/-- `ContentScheduler.setup_schedule` (src/scheduler.py lines 22-41): the jobs
registered for the given interval string, paired with whether the
unknown-interval warning was logged. -/
def setup_schedule (interval : List Char) : List JobSpec × Bool :=
  if interval = "hourly".data then ([.everyHours 1], false)
  else if interval = "every_2_hours".data then ([.everyHours 2], false)
  else if interval = "every_6_hours".data then ([.everyHours 6], false)
  else if interval = "daily".data then ([.dailyAt "09:00".data], false)
  else if interval = "twice_daily".data then
    ([.dailyAt "09:00".data, .dailyAt "18:00".data], false)
  else if interval = "weekly".data then ([.mondayAt "09:00".data], false)
  else ([.dailyAt "09:00".data], true)

/-- The `valid_intervals` list of `run_scheduler.main` (src/run_scheduler.py). -/
def validIntervals : List (List Char) :=
  ["hourly", "every_2_hours", "every_6_hours",
   "daily", "twice_daily", "weekly"].map String.data

/-- The cadence-handling part of `run_scheduler.main` (src/run_scheduler.py
lines 46-59): an interval outside `valid_intervals` makes the process call
`sys.exit(1)` (modelled as `Except.error 1`); otherwise the scheduler is
constructed, registering jobs via `setup_schedule`. -/
def runSchedulerMain (interval : List Char) : Except Nat (List JobSpec × Bool) :=
  if interval ∈ validIntervals then .ok (setup_schedule interval)
  else .error 1

/-! ## Concrete test inputs used by witnesses -/

/-- A one-keyword, low-density text: `"gpt"` followed by 1000 filler words. -/
def lowSignalText : List Char :=
  "gpt".data ++ (List.replicate 1000 [' ', 'z']).flatten

/-- A four-sentence text free of GenAI keywords. -/
def fourSentenceText : List Char :=
  "hello there everyone. second sentence here. third one. fourth bit".data

/-- A ledger with one stale entry, one fresh entry and one entry whose stored
timestamp does not parse. -/
def sampleLedger : Ledger :=
  ⟨0, 90, [("a".data, ⟨some "old".data, some 50, 1⟩),
           ("b".data, ⟨some "new".data, some 100, 2⟩),
           ("c".data, ⟨none, none, 1⟩)]⟩

/-! ## Helper lemmas -/

/-- Looking up the key just written by `dictInsert` yields the new entry. -/
theorem lookupUrl_dictInsert (l : List (List Char × SeenEntry)) (url : List Char)
    (v : SeenEntry) : lookupUrl (dictInsert l url v) url = some v := by
  induction l with
  | nil => simp [dictInsert, lookupUrl, List.find?]
  | cons hd tl ih =>
    by_cases h : hd.1 = url
    · simp [dictInsert, h, lookupUrl, List.find?]
    · have hb : (hd.1 == url) = false := by
        exact beq_eq_false_iff_ne.mpr h
      simp only [dictInsert, if_neg h, lookupUrl, List.find?, hb]
      exact ih

/-! ## Claims about the ledger -/

/-- C1: on a ledger where `url` is absent, `mark_article_seen url` stores the
entry with `seen_count = 1`; a second `mark_article_seen url` yields
`seen_count = 2`; and `is_article_seen url` is true after either call. -/
theorem mark_article_seen_fresh_counts (st : Ledger) (url : List Char)
    (title1 title2 : Option (List Char)) (t1 t2 : Int)
    (h : is_article_seen st url = false) :
    (∃ e, lookupUrl (mark_article_seen st url title1 t1).articles url = some e ∧
      e.seen_count = 1) ∧
    (∃ e, lookupUrl (mark_article_seen (mark_article_seen st url title1 t1)
        url title2 t2).articles url = some e ∧ e.seen_count = 2) ∧
    is_article_seen (mark_article_seen st url title1 t1) url = true ∧
    is_article_seen (mark_article_seen (mark_article_seen st url title1 t1)
        url title2 t2) url = true := by
  have hnone : lookupUrl st.articles url = none := by
    unfold is_article_seen at h
    exact Option.not_isSome_iff_eq_none.mp (by simp [h])
  have hmark : ∀ (s : Ledger) (ti : Option (List Char)) (t : Int),
      lookupUrl (mark_article_seen s url ti t).articles url
        = some ⟨ti, some t, prevCount s url + 1⟩ := by
    intro s ti t
    exact lookupUrl_dictInsert _ _ _
  have h1 : lookupUrl (mark_article_seen st url title1 t1).articles url
      = some ⟨title1, some t1, 1⟩ := by
    rw [hmark]
    unfold prevCount
    rw [hnone]
  have h2 : lookupUrl (mark_article_seen (mark_article_seen st url title1 t1)
      url title2 t2).articles url = some ⟨title2, some t2, 2⟩ := by
    rw [hmark]
    unfold prevCount
    rw [h1]
  refine ⟨⟨_, h1, rfl⟩, ⟨_, h2, rfl⟩, ?_, ?_⟩
  · unfold is_article_seen; rw [h1]; rfl
  · unfold is_article_seen; rw [h2]; rfl

/-- Witness for C1 at a concrete empty ledger and URL. -/
theorem mark_article_seen_fresh_counts_witness :
    (∃ e, lookupUrl (mark_article_seen ⟨0, 0, []⟩ "u".data none 0).articles
        "u".data = some e ∧ e.seen_count = 1) ∧
    (∃ e, lookupUrl (mark_article_seen (mark_article_seen ⟨0, 0, []⟩ "u".data none 0)
        "u".data none 1).articles "u".data = some e ∧ e.seen_count = 2) ∧
    is_article_seen (mark_article_seen ⟨0, 0, []⟩ "u".data none 0) "u".data = true ∧
    is_article_seen (mark_article_seen (mark_article_seen ⟨0, 0, []⟩ "u".data none 0)
        "u".data none 1) "u".data = true :=
  mark_article_seen_fresh_counts ⟨0, 0, []⟩ "u".data none none 0 1 (by decide)

/-- C3 (code bug): a repeat `mark_article_seen` does NOT leave `first_seen`
unchanged — the code rebuilds the whole entry, so `first_seen` is reset to the
time of the latest sighting.  Marking at time 0 and again at time 5 leaves the
entry with `first_seen = 5` (and count 2), not the original 0. -/
theorem mark_article_seen_resets_first_seen :
    lookupUrl (mark_article_seen (mark_article_seen ⟨0, 0, []⟩ "u".data none 0)
        "u".data none 5).articles "u".data
      = some ⟨none, some 5, 2⟩ ∧ (some (5 : Int) ≠ some (0 : Int)) := by
  decide

/-! ## Claims about loading (C10) -/

/-- C10: loading the ledger never raises; when the store file is absent
(`none`) or present but unreadable/unparsable (`some none`), the ledger
silently initializes to an empty mapping with fresh timestamps, and
`is_article_seen` is false for every URL. -/
theorem load_seen_articles_failure_fresh (file : Option (Option Ledger)) (now : Int)
    (h : file = none ∨ file = some none) :
    _load_seen_articles file now = ⟨now, now, []⟩ ∧
    ∀ url, is_article_seen (_load_seen_articles file now) url = false := by
  rcases h with h | h <;> subst h <;>
    exact ⟨rfl, fun url => by simp [_load_seen_articles, is_article_seen, lookupUrl, List.find?]⟩

/-- Witness for C10 at a concrete absent file. -/
theorem load_seen_articles_failure_fresh_witness :
    _load_seen_articles none 0 = ⟨0, 0, []⟩ ∧
    is_article_seen (_load_seen_articles none 0) "u".data = false :=
  ⟨(load_seen_articles_failure_fresh none 0 (Or.inl rfl)).1,
   (load_seen_articles_failure_fresh none 0 (Or.inl rfl)).2 "u".data⟩

/-! ## Claims about the scheduler (C9) -/

/-- C9 (counterexample): for the unrecognized cadence `"every_3_hours"`, the
`run_scheduler` entry point does NOT fall back to daily with a warning — it
exits the process with code 1, contradicting "never an error or process
exit". -/
theorem run_scheduler_unknown_interval_exits :
    runSchedulerMain "every_3_hours".data = .error 1 := by
  rfl

/-- C9 (amended): for every cadence outside the recognized set, constructing
the scheduler directly registers the daily 09:00 job and logs the warning;
but the `run_scheduler` entry point instead rejects the cadence and exits the
process with code 1. -/
theorem setup_schedule_unknown_defaults_daily (interval : List Char)
    (h : interval ∉ validIntervals) :
    setup_schedule interval = ([.dailyAt "09:00".data], true) ∧
    runSchedulerMain interval = .error 1 := by
  have hs : setup_schedule interval = ([.dailyAt "09:00".data], true) := by
    simp only [validIntervals, List.map, List.mem_cons, List.not_mem_nil,
      String.data] at h
    push_neg at h
    obtain ⟨h1, h2, h3, h4, h5, h6, -⟩ := h
    simp [setup_schedule, h1, h2, h3, h4, h5, h6]
  exact ⟨hs, by simp [runSchedulerMain, h]⟩

/-- Witness for C9's amended claim at the hyphen-spelled cadence
`"every-2-hours"`, which the code does not recognize. -/
theorem setup_schedule_unknown_defaults_daily_witness :
    setup_schedule "every-2-hours".data = ([.dailyAt "09:00".data], true) ∧
    runSchedulerMain "every-2-hours".data = .error 1 :=
  setup_schedule_unknown_defaults_daily "every-2-hours".data (by decide)

/-! ## Classifier lemmas -/

/-- Every character of a matched needle occurs in the haystack
(auxiliary for `isSubstr_subset`). -/
theorem isPrefixList_subset (n : List Char) : ∀ (m : List Char),
    isPrefixList n m = true → ∀ c ∈ n, c ∈ m := by
  induction n with
  | nil => intro m _ c hc; cases hc
  | cons a as ih =>
    intro m hp c hc
    cases m with
    | nil => simp [isPrefixList] at hp
    | cons b bs =>
      simp only [isPrefixList, Bool.and_eq_true, beq_iff_eq] at hp
      rcases List.mem_cons.mp hc with rfl | hc
      · exact hp.1 ▸ List.mem_cons_self _ _
      · exact List.mem_cons_of_mem _ (ih bs hp.2 c hc)

/-- Every character of a substring occurs in the enclosing string. -/
theorem isSubstr_subset (n : List Char) : ∀ (h : List Char),
    isSubstr n h = true → ∀ c ∈ n, c ∈ h := by
  intro h
  induction h with
  | nil =>
    intro hs c hc
    simp only [isSubstr, List.isEmpty_iff] at hs
    subst hs; cases hc
  | cons b bs ih =>
    intro hs c hc
    simp only [isSubstr, Bool.or_eq_true] at hs
    rcases hs with hs | hs
    · exact isPrefixList_subset n (b :: bs) hs c hc
    · exact List.mem_cons_of_mem _ (ih hs c hc)

/-- `pySplitAux` with a nonempty accumulator always produces a word. -/
theorem pySplitAux_ne_nil : ∀ (l acc : List Char), acc ≠ [] →
    pySplitAux acc l ≠ [] := by
  intro l
  induction l with
  | nil =>
    intro acc hacc
    simp [pySplitAux, List.isEmpty_iff, hacc]
  | cons c rest ih =>
    intro acc hacc
    by_cases hsp : isPySpace c = true
    · simp only [pySplitAux, hsp, if_true, List.isEmpty_iff, hacc, if_neg hacc]
      simp
    · simp only [pySplitAux, hsp]
      simp only [Bool.false_eq_true, if_false]
      exact ih (c :: acc) (by simp)

/-- A string that `str.split()` turns into zero words is all whitespace. -/
theorem pySplit_nil_all_space : ∀ (l : List Char), pySplit l = [] →
    ∀ c ∈ l, isPySpace c = true := by
  intro l
  unfold pySplit
  induction l with
  | nil => intro _ c hc; cases hc
  | cons b rest ih =>
    intro hsplit c hc
    by_cases hsp : isPySpace b = true
    · simp only [pySplitAux, hsp, if_true, List.isEmpty_nil, if_true] at hsplit
      rcases List.mem_cons.mp hc with rfl | hc
      · exact hsp
      · exact ih hsplit c hc
    · exfalso
      simp only [pySplitAux, hsp, Bool.false_eq_true, if_false] at hsplit
      exact pySplitAux_ne_nil rest [b] (by simp) hsplit

/-- Lower-casing preserves Python whitespace. -/
theorem isPySpace_toLower (c : Char) (h : isPySpace c = true) :
    isPySpace c.toLower = true := by
  simp only [isPySpace, Bool.or_eq_true, beq_iff_eq] at h
  rcases h with ((((rfl | rfl) | rfl) | rfl) | rfl) | rfl <;> decide

/-- Every default keyword contains a non-whitespace character. -/
theorem defaultKeywords_have_ink :
    ∀ k ∈ defaultKeywords, ∃ c ∈ k, isPySpace c = false := by
  decide

/-- An all-whitespace text matches no default keyword. -/
theorem countKeywordMatches_all_space (content : List Char)
    (hall : ∀ c ∈ content, isPySpace c = true) :
    countKeywordMatches defaultKeywords content = 0 := by
  unfold countKeywordMatches
  rw [List.countP_eq_zero]
  intro k hk
  simp only [Bool.not_eq_true]
  cases hsub : isSubstr k (lowerStr content) with
  | false => rfl
  | true =>
    exfalso
    obtain ⟨c, hc, hcs⟩ := defaultKeywords_have_ink k hk
    have hmem : c ∈ lowerStr content := isSubstr_subset k (lowerStr content) hsub c hc
    obtain ⟨d, hd, rfl⟩ := List.mem_map.mp hmem
    exact absurd (isPySpace_toLower d (hall d hd)) (by simp [hcs])

/-- The empty text matches no default keyword. -/
theorem countKeywordMatches_nil : countKeywordMatches defaultKeywords [] = 0 := by
  decide

/-! ## Claims about the classifier -/

/-- C2: whenever at least 3 distinct configured keywords occur as lower-case
substrings, or (on a non-empty text — the word-boundary regular expressions
cannot match the empty string) at least 2 of the fixed patterns match,
`is_genai_related` returns true, regardless of the other tier's counts. -/
theorem is_genai_related_high_confidence (matcher : List Char → List Char → Bool)
    (content : List Char)
    (h : 3 ≤ countKeywordMatches defaultKeywords content ∨
      (content ≠ [] ∧ 2 ≤ countPatternMatches matcher content)) :
    is_genai_related matcher defaultKeywords content = true := by
  have hne : content ≠ [] := by
    rcases h with h | h
    · rintro rfl
      rw [countKeywordMatches_nil] at h
      omega
    · exact h.1
  unfold is_genai_related
  rw [if_neg hne]
  rcases h with h | h
  · rw [if_pos (Or.inl h)]
  · rw [if_pos (Or.inr h.2)]

/-- Witness for C2: a text matching at least two patterns (abstract matcher
accepting everything). -/
theorem is_genai_related_high_confidence_witness :
    is_genai_related (fun _ _ => true) defaultKeywords "a".data = true :=
  is_genai_related_high_confidence (fun _ _ => true) "a".data
    (Or.inr ⟨by decide, by decide⟩)

/-- C6: a text with exactly one keyword match, density at most 0.001, no
pattern matches and fewer than 3 context-indicator matches is classified as
not related. -/
theorem is_genai_related_low_signal (matcher : List Char → List Char → Bool)
    (content : List Char)
    (h1 : countKeywordMatches defaultKeywords content = 1)
    (h2 : keywordDensity defaultKeywords content ≤ (1 : ℚ)/1000)
    (h3 : countPatternMatches matcher content = 0)
    (h4 : countContextMatches content < 3) :
    is_genai_related matcher defaultKeywords content = false := by
  by_cases hne : content = []
  · simp [is_genai_related, hne]
  · unfold is_genai_related
    rw [if_neg hne, if_neg, if_neg, if_neg]
    · exact fun hc => absurd hc.1 (by omega)
    · rintro ⟨-, hd | hp⟩
      · exact absurd hd (not_lt.mpr h2)
      · omega
    · rintro (hk | hp) <;> omega

set_option maxRecDepth 40000 in
/-- Witness for C6: `"gpt"` followed by 1000 filler words (density 1/1001)
with a matcher that never fires. -/
theorem is_genai_related_low_signal_witness :
    is_genai_related (fun _ _ => false) defaultKeywords lowSignalText = false :=
  is_genai_related_low_signal (fun _ _ => false) lowSignalText
    (by decide)
    (by
      have hw : wordCount lowSignalText = 1001 := by decide
      have hk : countKeywordMatches defaultKeywords lowSignalText = 1 := by decide
      unfold keywordDensity
      rw [hw, hk, if_pos (by norm_num : (0 : ℕ) < 1001)]
      norm_num)
    (by decide) (by decide)

/-- C8: for text of nonzero length with zero whitespace-delimited words, the
keyword density used by the decision rule equals `keywordMatches / 1` (both
sides are 0: the code's `else 0` branch fires, and an all-whitespace text can
match no keyword). -/
theorem keyword_density_zero_words (content : List Char)
    (_h0 : content ≠ []) (h : wordCount content = 0) :
    keywordDensity defaultKeywords content =
      (countKeywordMatches defaultKeywords content : ℚ) / 1 := by
  have hall : ∀ c ∈ content, isPySpace c = true :=
    pySplit_nil_all_space content (List.length_eq_zero.mp h)
  have hcnt : countKeywordMatches defaultKeywords content = 0 :=
    countKeywordMatches_all_space content hall
  unfold keywordDensity
  rw [if_neg (by omega), hcnt]
  norm_num

/-- Witness for C8 at a three-space text. -/
theorem keyword_density_zero_words_witness :
    keywordDensity defaultKeywords "   ".data =
      (countKeywordMatches defaultKeywords "   ".data : ℚ) / 1 :=
  keyword_density_zero_words "   ".data (by decide) (by decide)

/-! ## Summarizer lemmas -/

/-- The greedy loop never lets `current_length` pass `max_length`: if any
sentence was selected, the selected sentences' characters sum to at most
`maxLen` minus the starting length. -/
theorem greedyPick_sumLens (maxLen : Nat) : ∀ (l : List (Nat × List Char)) (cur : Nat),
    greedyPick maxLen cur l ≠ [] → cur + sumLens (greedyPick maxLen cur l) ≤ maxLen := by
  intro l
  induction l with
  | nil => intro cur h; exact absurd rfl h
  | cons hd tl ih =>
    intro cur h
    obtain ⟨q, s⟩ := hd
    by_cases hfit : maxLen < cur + s.length
    · rw [greedyPick, if_pos hfit] at h
      exact absurd rfl h
    · rw [greedyPick, if_neg hfit] at h ⊢
      by_cases hrest : greedyPick maxLen (cur + s.length) tl = []
      · rw [hrest]
        simp only [sumLens, List.map_cons, List.map_nil, List.sum_cons, List.sum_nil]
        omega
      · have := ih (cur + s.length) hrest
        simp only [sumLens, List.map_cons, List.sum_cons] at *
        omega

/-- Joining with `". "` adds two characters per separator. -/
theorem joinDotSpace_length_le : ∀ (ps : List (List Char)),
    (joinDotSpace ps).length ≤ sumLens ps + 2 * ps.length := by
  intro ps
  induction ps with
  | nil => simp [joinDotSpace, sumLens]
  | cons s rest ih =>
    cases rest with
    | nil => simp [joinDotSpace, sumLens]
    | cons r rs =>
      simp only [joinDotSpace, List.length_append, List.length_cons, sumLens,
        List.map_cons, List.sum_cons] at *
      omega

/-- Appending the terminal period adds at most one character. -/
theorem withTerminalDot_length (s : List Char) :
    (withTerminalDot s).length ≤ s.length + 1 := by
  unfold withTerminalDot
  split
  · simp
  · omega

/-- A nonempty string gains or keeps a terminal period. -/
theorem withTerminalDot_ends (s : List Char) (h : s ≠ []) :
    endsWithChar (withTerminalDot s) '.' = true := by
  unfold withTerminalDot
  by_cases hc : s ≠ [] ∧ endsWithChar s '.' = false
  · rw [if_pos hc]
    unfold endsWithChar
    rw [List.getLast?_append_of_ne_nil _ (by simp)]
    rfl
  · rw [if_neg hc]
    push_neg at hc
    exact eq_true_of_ne_false (hc h)

/-- `withTerminalDot` preserves emptiness. -/
theorem withTerminalDot_nil : withTerminalDot [] = [] := by
  unfold withTerminalDot
  rw [if_neg]
  simp

/-- The character-truncation fallback ends with a period (the last `.` of the
appended ellipsis). -/
theorem ellipsis_ends (l : List Char) :
    endsWithChar (l ++ "...".data) '.' = true := by
  unfold endsWithChar
  rw [List.getLast?_append_of_ne_nil _ (by simp)]
  rfl

/-- Every word produced by `str.split()` is nonempty. -/
theorem pySplitAux_mem_ne_nil : ∀ (l acc : List Char) (w : List Char),
    w ∈ pySplitAux acc l → w ≠ [] := by
  intro l
  induction l with
  | nil =>
    intro acc w hw
    unfold pySplitAux at hw
    by_cases hacc : acc.isEmpty = true
    · rw [if_pos hacc] at hw; cases hw
    · rw [if_neg hacc] at hw
      rcases List.mem_singleton.mp hw with rfl
      simp only [List.isEmpty_iff] at hacc
      simp [hacc]
  | cons c rest ih =>
    intro acc w hw
    unfold pySplitAux at hw
    by_cases hsp : isPySpace c = true
    · rw [if_pos hsp] at hw
      by_cases hacc : acc.isEmpty = true
      · rw [if_pos hacc] at hw
        exact ih [] w hw
      · rw [if_neg hacc] at hw
        rcases List.mem_cons.mp hw with rfl | hw
        · simp only [List.isEmpty_iff] at hacc
          simp [hacc]
        · exact ih [] w hw
    · rw [if_neg hsp] at hw
      exact ih (c :: acc) w hw

/-- Joining a nonempty first word with spaces gives a nonempty string. -/
theorem joinSpace_ne_nil (w : List Char) (ws : List (List Char)) (h : w ≠ []) :
    joinSpace (w :: ws) ≠ [] := by
  cases ws with
  | nil => exact h
  | cons r rs => simp [joinSpace, h]

/-- The 1024-word input cap of `summarize_article` keeps a nonempty text
nonempty. -/
theorem truncateWords_ne_nil (content : List Char) (h : content ≠ []) :
    truncateWords content ≠ [] := by
  unfold truncateWords
  by_cases hlong : 1024 < (pySplit content).length
  · rw [if_pos hlong]
    cases hws : pySplit content with
    | nil => rw [hws] at hlong; simp at hlong
    | cons w ws =>
      rw [show (1024 : ℕ) = 1023 + 1 from rfl, List.take_succ_cons]
      refine joinSpace_ne_nil w _ ?_
      refine pySplitAux_mem_ne_nil content [] w ?_
      have hmem : w ∈ w :: ws := List.mem_cons_self _ _
      rw [← hws] at hmem
      exact hmem
  · rw [if_neg hlong]
    exact h

/-- The extractive fallback never returns the empty string on nonempty
input. -/
theorem extractive_ne_nil (keywords : List (List Char)) (content : List Char)
    (maxLen : Nat) (h : content ≠ []) :
    _generate_extractive_summary keywords content maxLen ≠ [] := by
  unfold _generate_extractive_summary
  by_cases hs : (splitDotSpace content).length ≤ 2
  · rw [if_pos hs]
    by_cases hl : maxLen < content.length
    · rw [if_pos hl]; simp
    · rw [if_neg hl]; exact h
  · rw [if_neg hs]
    by_cases hw : withTerminalDot (joinDotSpace (extractiveParts keywords content maxLen)) ≠ []
    · rw [if_pos hw]; exact hw
    · rw [if_neg hw]; simp

/-- Outside the short-verbatim case (at most 2 sentences and at most `maxLen`
characters), the extractive fallback's output ends with a period. -/
theorem extractive_ends (keywords : List (List Char)) (content : List Char)
    (maxLen : Nat)
    (h : ¬((splitDotSpace content).length ≤ 2 ∧ content.length ≤ maxLen)) :
    endsWithChar (_generate_extractive_summary keywords content maxLen) '.' = true := by
  unfold _generate_extractive_summary
  by_cases hs : (splitDotSpace content).length ≤ 2
  · have hl : maxLen < content.length := by
      by_contra hl
      exact h ⟨hs, not_lt.mp hl⟩
    rw [if_pos hs, if_pos hl]
    exact ellipsis_ends _
  · rw [if_neg hs]
    by_cases hw : withTerminalDot (joinDotSpace (extractiveParts keywords content maxLen)) ≠ []
    · rw [if_pos hw]
      refine withTerminalDot_ends _ ?_
      intro hj
      rw [hj, withTerminalDot_nil] at hw
      exact hw rfl
    · rw [if_neg hw]
      exact ellipsis_ends _

/-! ## Claims about the summarizer -/

/-- C4 (counterexample): the claimed bound `maxLen` plus the fixed
terminal-period/ellipsis allowance fails, because the greedy running length
does not count the `". "` join separators.  For
`"aaaa. bbbb. cccc. dddd"` with `maxLen = 12` the summary is
`"aaaa. bbbb. cccc."` of length 17, exceeding `12 + 3`. -/
theorem extractive_summary_exceeds_claimed_bound :
    (_generate_extractive_summary defaultKeywords "aaaa. bbbb. cccc. dddd".data 12).length
        = 17 ∧ 12 + 3 < 17 :=
  ⟨by rfl, by norm_num⟩

/-- C4 (amended): the extractive summary's length is at most `maxLen` plus the
ellipsis/period allowance of 3 plus two characters for every selected
sentence (the `". "` separators the running length does not count). -/
theorem extractive_summary_length_bound (keywords : List (List Char))
    (content : List Char) (maxLen : Nat) :
    (_generate_extractive_summary keywords content maxLen).length ≤
      maxLen + 2 * (extractiveParts keywords content maxLen).length + 3 := by
  unfold _generate_extractive_summary
  by_cases hs : (splitDotSpace content).length ≤ 2
  · rw [if_pos hs]
    by_cases hl : maxLen < content.length
    · rw [if_pos hl]
      have h3 : ("...".data).length = 3 := rfl
      have hmin : min maxLen content.length ≤ maxLen := min_le_left _ _
      rw [List.length_append, List.length_take, h3]
      omega
    · rw [if_neg hl]
      omega
  · rw [if_neg hs]
    by_cases hw : withTerminalDot (joinDotSpace (extractiveParts keywords content maxLen)) ≠ []
    · rw [if_pos hw]
      have hjoin : joinDotSpace (extractiveParts keywords content maxLen) ≠ [] := by
        intro hj
        rw [hj, withTerminalDot_nil] at hw
        exact hw rfl
      have hparts : extractiveParts keywords content maxLen ≠ [] := by
        intro hp
        rw [hp] at hjoin
        exact hjoin rfl
      have hsum : sumLens (extractiveParts keywords content maxLen) ≤ maxLen := by
        have := greedyPick_sumLens maxLen
          (List.insertionSort (fun a b => b.1 ≤ a.1)
            (scoredSentences keywords (splitDotSpace content))) 0
        unfold extractiveParts at hparts ⊢
        rw [if_neg hs] at hparts ⊢
        have := this hparts
        omega
      have hjl := joinDotSpace_length_le (extractiveParts keywords content maxLen)
      have hwl := withTerminalDot_length (joinDotSpace (extractiveParts keywords content maxLen))
      omega
    · rw [if_neg hw]
      have h3 : ("...".data).length = 3 := rfl
      have hmin : min maxLen content.length ≤ maxLen := min_le_left _ _
      rw [List.length_append, List.length_take, h3]
      omega

/-- C5 (counterexample): with the model collaborator always raising, the
two-character one-sentence text `"hi"` is returned verbatim by
`summarize_article`: non-empty, but ending neither in `"."` nor in `"..."`. -/
theorem summarize_article_verbatim_counterexample :
    summarize_article (some (fun _ _ _ => none)) defaultKeywords "hi".data 150 50
        = "hi".data ∧
    endsWithChar "hi".data '.' = false ∧ endsList "hi".data "...".data = false := by
  refine ⟨by rfl, by rfl, by rfl⟩

/-- C5 (amended): with the model collaborator always raising, for every
non-empty article text `summarize_article` returns a non-empty string; and
whenever the word-capped text has more than 2 sentences or more than `maxLen`
characters the result ends with `"."` or `"..."` — a text with at most 2
sentences and at most `maxLen` characters is returned verbatim instead. -/
theorem summarize_article_model_failure (content : List Char) (h : content ≠ []) :
    summarize_article (some (fun _ _ _ => none)) defaultKeywords content 150 50 ≠ [] ∧
    (¬((splitDotSpace (truncateWords content)).length ≤ 2 ∧
        (truncateWords content).length ≤ 150) →
      (endsWithChar (summarize_article (some (fun _ _ _ => none)) defaultKeywords
          content 150 50) '.' = true ∨
       endsList (summarize_article (some (fun _ _ _ => none)) defaultKeywords
          content 150 50) "...".data = true)) := by
  have heq : summarize_article (some (fun _ _ _ => none)) defaultKeywords content 150 50
      = _generate_extractive_summary defaultKeywords (truncateWords content) 150 := by
    simp only [summarize_article]
    rw [if_neg h]
  rw [heq]
  exact ⟨extractive_ne_nil _ _ _ (truncateWords_ne_nil content h),
    fun hc => Or.inl (extractive_ends _ _ _ hc)⟩

/-! ## Claims about cleanup (C7) -/

/-- Two entries of a unique-key association list with the same key are the
same entry. -/
theorem nodup_key_eq {l : List (List Char × SeenEntry)}
    (h : (l.map (fun e => e.1)).Nodup) {a b : List Char × SeenEntry}
    (ha : a ∈ l) (hb : b ∈ l) (hk : a.1 = b.1) : a = b := by
  induction l with
  | nil => cases ha
  | cons hd tl ih =>
    simp only [List.map_cons, List.nodup_cons, List.mem_map] at h
    rcases List.mem_cons.mp ha with ha' | ha'
    · rcases List.mem_cons.mp hb with hb' | hb'
      · rw [ha', hb']
      · exact absurd ⟨b, hb', by rw [← ha']; exact hk.symm⟩ h.1
    · rcases List.mem_cons.mp hb with hb' | hb'
      · exact absurd ⟨a, ha', by rw [← hb']; exact hk⟩ h.1
      · exact ih h.2 ha' hb'

/-- C7: `cleanup_old_articles` keeps exactly the entries whose stored
first-seen timestamp parses and is not older than the cutoff `now - maxAgeDays`;
entries older than the cutoff and entries with an unparsable timestamp are
removed.  (In particular `maxAgeDays = 0` removes every entry first seen
strictly in the past, and a huge `maxAgeDays` keeps all recent entries.) -/
theorem cleanup_old_articles_spec (st : Ledger) (daysOld : Nat) (now : Int)
    (hnodup : (st.articles.map (fun e => e.1)).Nodup)
    (e : List Char × SeenEntry) :
    e ∈ (cleanup_old_articles st daysOld now).articles ↔
      e ∈ st.articles ∧
        ∃ t, e.2.first_seen = some t ∧ now - (daysOld : Int) ≤ t := by
  show e ∈ st.articles.filter _ ↔ _
  rw [List.mem_filter]
  constructor
  · rintro ⟨hmem, hkeep⟩
    refine ⟨hmem, ?_⟩
    have hnotin : e.1 ∉ urlsToRemove st (now - daysOld) := by
      simpa using hkeep
    have hstale : staleEntry (now - (daysOld : Int)) e = false := by
      cases hs : staleEntry (now - (daysOld : Int)) e with
      | false => rfl
      | true =>
        exact absurd (List.mem_map.mpr
          ⟨e, List.mem_filter.mpr ⟨hmem, hs⟩, rfl⟩) hnotin
    unfold staleEntry at hstale
    cases hfs : e.2.first_seen with
    | none => rw [hfs] at hstale; simp at hstale
    | some t =>
      rw [hfs] at hstale
      exact ⟨t, rfl, by simpa [not_lt] using hstale⟩
  · rintro ⟨hmem, t, hfs, hle⟩
    refine ⟨hmem, ?_⟩
    have hstale : staleEntry (now - (daysOld : Int)) e = false := by
      unfold staleEntry
      rw [hfs]
      simpa [not_lt] using hle
    have hnotin : e.1 ∉ urlsToRemove st (now - daysOld) := by
      intro hin
      obtain ⟨e', he'mem, hkey⟩ := List.mem_map.mp hin
      have he'filter := List.mem_filter.mp he'mem
      have : e' = e := nodup_key_eq hnodup he'filter.1 hmem hkey
      rw [this, hstale] at he'filter
      exact absurd he'filter.2 (by simp)
    simpa using hnotin

/-- Witness for C7: in a ledger with a stale entry, a fresh entry and an
unparsable-timestamp entry, cleanup with `maxAgeDays = 0` at day 100 keeps
exactly the fresh entry. -/
theorem cleanup_old_articles_spec_witness :
    (("b".data, (⟨some "new".data, some 100, 2⟩ : SeenEntry)) ∈
        (cleanup_old_articles sampleLedger 0 100).articles ↔
      ("b".data, (⟨some "new".data, some 100, 2⟩ : SeenEntry)) ∈
          sampleLedger.articles ∧
        ∃ t, (some (100 : Int)) = some t ∧ (100 : Int) - ((0 : Nat) : Int) ≤ t) :=
  cleanup_old_articles_spec sampleLedger 0 100 (by decide)
    ("b".data, ⟨some "new".data, some 100, 2⟩)

/-- Witness for C5's amended claim at a four-sentence text. -/
theorem summarize_article_model_failure_witness :
    summarize_article (some (fun _ _ _ => none)) defaultKeywords fourSentenceText
        150 50 ≠ [] ∧
    (endsWithChar (summarize_article (some (fun _ _ _ => none)) defaultKeywords
        fourSentenceText 150 50) '.' = true ∨
     endsList (summarize_article (some (fun _ _ _ => none)) defaultKeywords
        fourSentenceText 150 50) "...".data = true) :=
  ⟨(summarize_article_model_failure fourSentenceText (by decide)).1,
   (summarize_article_model_failure fourSentenceText (by decide)).2 (by decide)⟩

end GenAIMonitor
